import Mathlib

/-
Shallow embedding of the crawl controller of the `scraper` repository
(src/scraper.py, src/main.py).  Pure data is modelled directly; the
network, the HTML parser and the clock are modelled as oracles carried
in a context record.  A trace of fetch and sleep events records the
externally observable actions of one crawl run.
-/

set_option maxRecDepth 10000

/-- Decides whether the first character list is a prefix of the second
(helper for the Python substring operator). -/
def prefixOfB : List Char → List Char → Bool
  | [], _ => true
  | _ :: _, [] => false
  | a :: as, b :: bs => a == b && prefixOfB as bs

/-- Decides whether `needle` occurs as a contiguous substring of `hay`
(helper for the Python substring operator). -/
def substrOfB (needle : List Char) : List Char → Bool
  | [] => prefixOfB needle []
  | b :: bs => prefixOfB needle (b :: bs) || substrOfB needle bs

/-- Models the Python expression `needle in hay` on strings: substring
containment. -/
def strContainsPy (hay needle : String) : Bool :=
  substrOfB needle.toList hay.toList

/-- Characters allowed in a URL scheme, as in `urllib.parse`. -/
def isSchemeChar (c : Char) : Bool :=
  c.isAlphanum || c == '+' || c == '-' || c == '.'

/-- Models `urllib.parse.urlparse(u).netloc` for the absolute URLs the
scraper handles: strip a leading `scheme:` (scheme starting with a
letter), then, when the remainder starts with two slashes, the netloc is
everything up to the next slash, question mark or hash; otherwise it is
empty. -/
def netlocOf (u : String) : String :=
  let cs := u.toList
  let rest :=
    match cs.span isSchemeChar with
    | (pre, ':' :: r) =>
      match pre with
      | [] => cs
      | c :: _ => if c.isAlpha then r else cs
    | _ => cs
  match rest with
  | '/' :: '/' :: r =>
      String.mk (r.takeWhile (fun c => c != '/' && c != '?' && c != '#'))
  | _ => ""

/-- Embeds `WebScraper._is_allowed_domain` (src/scraper.py lines 129 to
146): true when the allow-list is empty, otherwise true iff some entry
of the allow-list occurs as a substring of the netloc of the URL. -/
def is_allowed_domain (allowedDomains : List String) (url : String) : Bool :=
  if allowedDomains.isEmpty then
    true
  else
    let domain := netlocOf url
    allowedDomains.any (fun allowed => strContainsPy domain allowed)

/-- Outcome of one `session.get` call, as classified by the branches of
`WebScraper.fetch_page`: an HTTP response with a status code and body,
or one of the exception classes the source catches. -/
inductive HttpResult where
  | response (status : Nat) (body : String)
  | timeout
  | connError
  | requestErr (msg : String)
  | otherErr (msg : String)
deriving DecidableEq, Repr

/-- Embeds `WebScraper.fetch_page` (src/scraper.py lines 30 to 72) as a
function of the HTTP outcome: the body is returned for status 200; the
404, 403 and other-status branches and every caught exception return
`none`.  Totality of this function is the embedding of the guarantee
that `fetch_page` never raises. -/
def fetch_page (r : HttpResult) : Option String :=
  match r with
  | .response status body =>
    if status = 200 then some body
    else if status = 404 then none
    else if status = 403 then none
    else none
  | .timeout => none
  | .connError => none
  | .requestErr _ => none
  | .otherErr _ => none

/-- Record produced by the external HTML parser collaborator for one
successfully fetched page (the dict built by `HTMLParser.parse`); its
fields are opaque to the crawl controller. -/
structure PageData where
  url : String
  title : String
  links : List String
  images : List String
  textContent : String
deriving DecidableEq, Repr

/-- Externally observable events of a crawl run: a call of `fetch_page`
on a URL, and a `time.sleep` call of the rate limiter. -/
inductive Ev where
  | fetch (url : String)
  | sleep
deriving DecidableEq, Repr

/-- Context of one crawl: the network oracle (outcome of `session.get`
per URL), the parser collaborator oracles, and the configuration values
the controller reads (`allowed_domains`, `follow_links`,
`delay_between_requests`, `max_pages`). -/
structure Ctx where
  http : String → HttpResult
  parse : String → String → PageData
  extractLinks : String → String → List String
  allowedDomains : List String
  followLinks : Bool
  delay : Int
  cfgMaxPages : Nat

/-- Models `self.visited_urls.add(url)` on the insertion-ordered list
representing the Python set: appends the URL when absent, no-op when
present. -/
def insertVisited (url : String) (v : List String) : List String :=
  if url ∈ v then v else v ++ [url]

/-- Embeds `WebScraper._add_links_to_queue` (src/scraper.py lines 148 to
156): appends each link that is neither visited nor already queued,
scanning the queue as it grows. -/
def addLinksToQueue (visited : List String) (queue : List String) :
    List String → List String
  | [] => queue
  | l :: ls =>
    if l ∈ visited ∨ l ∈ queue then addLinksToQueue visited queue ls
    else addLinksToQueue visited (queue ++ [l]) ls

/-- State left by one crawl run: the visited set, the leftover queue,
the per-page records appended to `results`, and the chronological event
trace. -/
structure CrawlResult where
  visited : List String
  queue : List String
  results : List PageData
  trace : List Ev
deriving DecidableEq, Repr

/-- Embeds the `while` loop of `WebScraper.crawl` (src/scraper.py lines
95 to 121).  Loop guard: queue non-empty and `len(visited) < max_pages`.
Body: pop the head; skip if visited; skip if the domain filter rejects;
otherwise fetch (a `fetch` event), mark visited, on success parse the
page into a record and, when `follow_links` is set, add the extracted
links to the queue; finally sleep (a `sleep` event) when the configured
delay is positive and the queue is non-empty.  The records and events
are returned as the lists produced from this iteration on. -/
def crawlLoop (C : Ctx) (maxPages : Nat) (queue visited : List String) :
    CrawlResult :=
  match queue with
  | [] => ⟨visited, [], [], []⟩
  | url :: rest =>
    if hb : visited.length < maxPages then
      if hv : url ∈ visited then
        crawlLoop C maxPages rest visited
      else if is_allowed_domain C.allowedDomains url = false then
        crawlLoop C maxPages rest visited
      else
        match fetch_page (C.http url) with
        | none =>
          let visited2 := insertVisited url visited
          let r := crawlLoop C maxPages rest visited2
          ⟨r.visited, r.queue, r.results,
            Ev.fetch url ::
              (if 0 < C.delay ∧ rest ≠ [] then Ev.sleep :: r.trace else r.trace)⟩
        | some html =>
          let pd := C.parse html url
          let visited2 := insertVisited url visited
          let rest2 :=
            if C.followLinks then
              addLinksToQueue visited2 rest (C.extractLinks html url)
            else rest
          let r := crawlLoop C maxPages rest2 visited2
          ⟨r.visited, r.queue, pd :: r.results,
            Ev.fetch url ::
              (if 0 < C.delay ∧ rest2 ≠ [] then Ev.sleep :: r.trace else r.trace)⟩
    else ⟨visited, queue, [], []⟩
termination_by (maxPages - visited.length, queue.length)
decreasing_by
  · exact Prod.Lex.right _ (by simp)
  · exact Prod.Lex.right _ (by simp)
  · refine Prod.Lex.left _ _ ?_
    simp [insertVisited, hv]
    omega
  · refine Prod.Lex.left _ _ ?_
    simp [insertVisited, hv]
    omega

/-- URLs of the fetch events of a trace, in order. -/
def fetchedUrls (tr : List Ev) : List String :=
  tr.filterMap (fun e => match e with | .fetch u => some u | .sleep => none)

/-- Per-instance mutable state of a `WebScraper` object:
`self.visited_urls` (insertion-ordered set) and `self.urls_to_visit`. -/
structure Scraper where
  visited_urls : List String
  urls_to_visit : List String
deriving DecidableEq, Repr

/-- State set by `WebScraper.__init__` (src/scraper.py lines 27 to 28):
empty visited set, empty queue. -/
def scraperInit : Scraper := ⟨[], []⟩

/-- Result of one `WebScraper.crawl` invocation: the scraper state after
the call, the returned `results` list, and the event trace. -/
structure CrawlRun where
  scraper : Scraper
  results : List PageData
  trace : List Ev
deriving DecidableEq, Repr

/-- Effective page budget of a `crawl` call: the Python expression
`max_pages or self.config.get('max_pages', 10)`, so the argument unless
it is absent or zero (falsy), in which case the configured value. -/
def effectiveMaxPages (C : Ctx) (maxPagesArg : Option Nat) : Nat :=
  match maxPagesArg with
  | some n => if n = 0 then C.cfgMaxPages else n
  | none => C.cfgMaxPages

/-- Embeds `WebScraper.crawl` (src/scraper.py lines 74 to 127): the
queue is reassigned to exactly the start URL, the effective budget is
`effectiveMaxPages`, and the loop runs from the instance's current
visited set, which the method does not reset. -/
def crawl (C : Ctx) (s : Scraper) (startUrl : String)
    (maxPagesArg : Option Nat) : CrawlRun :=
  let r := crawlLoop C (effectiveMaxPages C maxPagesArg) [startUrl] s.visited_urls
  ⟨⟨r.visited, r.queue⟩, r.results, r.trace⟩

/-- Embeds `WebScraper.scrape_single_page` (src/scraper.py lines 158 to
174): one fetch, one optional parse; no frontier, no visited set, no
domain filter.  The second component is the event trace. -/
def scrape_single_page (C : Ctx) (url : String) :
    Option PageData × List Ev :=
  match fetch_page (C.http url) with
  | some html => (some (C.parse html url), [Ev.fetch url])
  | none => (none, [Ev.fetch url])

/-- Fuel-indexed variant of `crawlLoop`, identical branch for branch but
structurally recursive on an iteration budget: `none` means the budget
of loop iterations was exhausted before the loop guard failed.  Used to
state that the crawl loop completes after finitely many iterations. -/
def crawlLoopFuel (C : Ctx) (maxPages : Nat) :
    Nat → List String → List String → Option CrawlResult
  | 0, _, _ => none
  | _ + 1, [], visited => some ⟨visited, [], [], []⟩
  | fuel + 1, url :: rest, visited =>
    if visited.length < maxPages then
      if url ∈ visited then
        crawlLoopFuel C maxPages fuel rest visited
      else if is_allowed_domain C.allowedDomains url = false then
        crawlLoopFuel C maxPages fuel rest visited
      else
        match fetch_page (C.http url) with
        | none =>
          let visited2 := insertVisited url visited
          match crawlLoopFuel C maxPages fuel rest visited2 with
          | none => none
          | some r => some ⟨r.visited, r.queue, r.results,
              Ev.fetch url ::
                (if 0 < C.delay ∧ rest ≠ [] then Ev.sleep :: r.trace else r.trace)⟩
        | some html =>
          let pd := C.parse html url
          let visited2 := insertVisited url visited
          let rest2 :=
            if C.followLinks then
              addLinksToQueue visited2 rest (C.extractLinks html url)
            else rest
          match crawlLoopFuel C maxPages fuel rest2 visited2 with
          | none => none
          | some r => some ⟨r.visited, r.queue, pd :: r.results,
              Ev.fetch url ::
                (if 0 < C.delay ∧ rest2 ≠ [] then Ev.sleep :: r.trace else r.trace)⟩
    else some ⟨visited, url :: rest, [], []⟩

/-- Fuel-indexed variant of `crawl`: runs `crawlLoopFuel` with the given
iteration budget from the same initial state as `crawl`. -/
def crawlFuel (C : Ctx) (n : Nat) (s : Scraper) (startUrl : String)
    (maxPagesArg : Option Nat) : Option CrawlRun :=
  match crawlLoopFuel C (effectiveMaxPages C maxPagesArg) n [startUrl] s.visited_urls with
  | none => none
  | some r => some ⟨⟨r.visited, r.queue⟩, r.results, r.trace⟩

/-- Command-line arguments of src/main.py after `parse_arguments`, with
the argparse defaults as field values when a flag is not given: an
absent string-typed flag is `none`, `--max-pages` defaults to 10,
`--delay` to 2, `-o` to "json", `--timeout` to 30.  Numeric values are
modelled as integers. -/
structure CliArgs where
  url : Option String
  crawl : Bool
  maxPages : Int
  delay : Int
  output : String
  configFile : Option String
  generateConfig : Bool
  selector : Option String
  timeout : Int
  allowedDomains : Option String
deriving DecidableEq, Repr

/-- The configuration keys that `main` reads or writes, as a record: a
snapshot of the `Config` dict after loading (defaults or a config
file). -/
structure ConfigState where
  targetUrl : String
  maxPages : Int
  delay : Int
  outputFormat : String
  timeout : Int
  allowedDomains : List String
  followLinks : Bool
  selectorCustom : Option String
deriving DecidableEq, Repr

/-- Embeds the override block of `main` (src/main.py lines 159 to 183):
each `if args.x: config.set(key, args.x)` guard is Python truthiness,
so an integer flag overrides unless it is 0, a string flag unless it is
empty or absent; `--allowed-domains` is split on commas and each piece
stripped; `--crawl` sets `follow_links`. -/
def applyCliOverrides (cfg : ConfigState) (args : CliArgs) : ConfigState :=
  let cfg :=
    match args.url with
    | some s => if s ≠ "" then { cfg with targetUrl := s } else cfg
    | none => cfg
  let cfg := if args.maxPages ≠ 0 then { cfg with maxPages := args.maxPages } else cfg
  let cfg := if args.delay ≠ 0 then { cfg with delay := args.delay } else cfg
  let cfg := if args.output ≠ "" then { cfg with outputFormat := args.output } else cfg
  let cfg := if args.timeout ≠ 0 then { cfg with timeout := args.timeout } else cfg
  let cfg :=
    match args.allowedDomains with
    | some s =>
      if s ≠ "" then
        { cfg with allowedDomains := (s.splitOn ",").map String.trim }
      else cfg
    | none => cfg
  let cfg := if args.crawl then { cfg with followLinks := true } else cfg
  match args.selector with
  | some s => if s ≠ "" then { cfg with selectorCustom := some s } else cfg
  | none => cfg

/-- The parsed arguments for an invocation `python main.py --config
PATH` with no other flags: every field keeps its argparse default. -/
def argsConfigOnly (path : String) : CliArgs :=
  ⟨none, false, 10, 2, "json", some path, false, none, 30, none⟩

@[simp] theorem fetchedUrls_nil : fetchedUrls [] = [] := rfl

@[simp] theorem fetchedUrls_fetch_cons (u : String) (t : List Ev) :
    fetchedUrls (Ev.fetch u :: t) = u :: fetchedUrls t := rfl

@[simp] theorem fetchedUrls_sleep_cons (t : List Ev) :
    fetchedUrls (Ev.sleep :: t) = fetchedUrls t := rfl

/-- A conditional sleep event contributes no fetched URL. -/
@[simp] theorem fetchedUrls_ite_sleep (c : Prop) [Decidable c] (t : List Ev) :
    fetchedUrls (if c then Ev.sleep :: t else t) = fetchedUrls t := by
  by_cases h : c <;> simp [h]

/-- Unfolding of `crawlLoop` on the empty queue. -/
theorem crawlLoop_nil (C : Ctx) (mp : Nat) (v : List String) :
    crawlLoop C mp [] v = ⟨v, [], [], []⟩ := by
  rw [crawlLoop]

/-- Unfolding of `crawlLoop` when the page budget is exhausted. -/
theorem crawlLoop_stop (C : Ctx) (mp : Nat) (url : String)
    (rest v : List String) (hb : ¬ v.length < mp) :
    crawlLoop C mp (url :: rest) v = ⟨v, url :: rest, [], []⟩ := by
  rw [crawlLoop]; simp [hb]

/-- Unfolding of `crawlLoop` when the dequeued URL is already visited. -/
theorem crawlLoop_skip_visited (C : Ctx) (mp : Nat) (url : String)
    (rest v : List String) (hb : v.length < mp) (hv : url ∈ v) :
    crawlLoop C mp (url :: rest) v = crawlLoop C mp rest v := by
  rw [crawlLoop]; simp [hb, hv]

/-- Unfolding of `crawlLoop` when the domain filter rejects the
dequeued URL. -/
theorem crawlLoop_skip_domain (C : Ctx) (mp : Nat) (url : String)
    (rest v : List String) (hb : v.length < mp) (hv : url ∉ v)
    (hd : is_allowed_domain C.allowedDomains url = false) :
    crawlLoop C mp (url :: rest) v = crawlLoop C mp rest v := by
  rw [crawlLoop]; simp [hb, hv, hd]

/-- Unfolding of `crawlLoop` when the fetch of the dequeued URL fails. -/
theorem crawlLoop_fetch_fail (C : Ctx) (mp : Nat) (url : String)
    (rest v : List String) (hb : v.length < mp) (hv : url ∉ v)
    (hd : is_allowed_domain C.allowedDomains url = true)
    (hf : fetch_page (C.http url) = none) :
    crawlLoop C mp (url :: rest) v =
      ⟨(crawlLoop C mp rest (insertVisited url v)).visited,
       (crawlLoop C mp rest (insertVisited url v)).queue,
       (crawlLoop C mp rest (insertVisited url v)).results,
       Ev.fetch url ::
         (if 0 < C.delay ∧ rest ≠ [] then
            Ev.sleep :: (crawlLoop C mp rest (insertVisited url v)).trace
          else (crawlLoop C mp rest (insertVisited url v)).trace)⟩ := by
  rw [crawlLoop]; simp [hb, hv, hd, hf]

/-- Unfolding of `crawlLoop` when the fetch of the dequeued URL
succeeds. -/
theorem crawlLoop_fetch_ok (C : Ctx) (mp : Nat) (url html : String)
    (rest v : List String) (hb : v.length < mp) (hv : url ∉ v)
    (hd : is_allowed_domain C.allowedDomains url = true)
    (hf : fetch_page (C.http url) = some html) :
    crawlLoop C mp (url :: rest) v =
      ⟨(crawlLoop C mp
          (if C.followLinks then
             addLinksToQueue (insertVisited url v) rest (C.extractLinks html url)
           else rest) (insertVisited url v)).visited,
       (crawlLoop C mp
          (if C.followLinks then
             addLinksToQueue (insertVisited url v) rest (C.extractLinks html url)
           else rest) (insertVisited url v)).queue,
       C.parse html url ::
         (crawlLoop C mp
            (if C.followLinks then
               addLinksToQueue (insertVisited url v) rest (C.extractLinks html url)
             else rest) (insertVisited url v)).results,
       Ev.fetch url ::
         (if 0 < C.delay ∧
              (if C.followLinks then
                 addLinksToQueue (insertVisited url v) rest (C.extractLinks html url)
               else rest) ≠ [] then
            Ev.sleep ::
              (crawlLoop C mp
                 (if C.followLinks then
                    addLinksToQueue (insertVisited url v) rest (C.extractLinks html url)
                  else rest) (insertVisited url v)).trace
          else
            (crawlLoop C mp
               (if C.followLinks then
                  addLinksToQueue (insertVisited url v) rest (C.extractLinks html url)
                else rest) (insertVisited url v)).trace)⟩ := by
  rw [crawlLoop]; simp [hb, hv, hd, hf]

/-- Evaluation lemma: when the fuel-indexed loop completes within its
iteration budget, it computes exactly the crawl loop result. -/
theorem crawlLoopFuel_sound (C : Ctx) (mp : Nat) :
    ∀ (n : Nat) (q v : List String) (r : CrawlResult),
      crawlLoopFuel C mp n q v = some r → crawlLoop C mp q v = r := by
  intro n
  induction n with
  | zero => intro q v r h; simp [crawlLoopFuel] at h
  | succ n ih =>
    intro q v r h
    match q with
    | [] =>
      simp [crawlLoopFuel] at h
      rw [crawlLoop_nil, ← h]
    | url :: rest =>
      by_cases hb : v.length < mp
      · by_cases hv : url ∈ v
        · rw [crawlLoop_skip_visited C mp url rest v hb hv]
          exact ih rest v r (by simpa [crawlLoopFuel, hb, hv] using h)
        · by_cases hd : is_allowed_domain C.allowedDomains url = false
          · rw [crawlLoop_skip_domain C mp url rest v hb hv hd]
            exact ih rest v r (by simpa [crawlLoopFuel, hb, hv, hd] using h)
          · have hd2 : is_allowed_domain C.allowedDomains url = true := by
              cases hA : is_allowed_domain C.allowedDomains url
              · exact absurd hA hd
              · rfl
            cases hf : fetch_page (C.http url) with
            | none =>
              rw [crawlLoop_fetch_fail C mp url rest v hb hv hd2 hf]
              simp only [crawlLoopFuel, if_pos hb, if_neg hv, if_neg hd, hf] at h
              cases hrec : crawlLoopFuel C mp n rest (insertVisited url v) with
              | none => rw [hrec] at h; simp at h
              | some r0 =>
                rw [hrec] at h
                simp only [Option.some.injEq] at h
                rw [ih rest (insertVisited url v) r0 hrec, ← h]
            | some html =>
              rw [crawlLoop_fetch_ok C mp url html rest v hb hv hd2 hf]
              simp only [crawlLoopFuel, if_pos hb, if_neg hv, if_neg hd, hf] at h
              cases hrec : crawlLoopFuel C mp n
                  (if C.followLinks then
                     addLinksToQueue (insertVisited url v) rest (C.extractLinks html url)
                   else rest) (insertVisited url v) with
              | none => rw [hrec] at h; simp at h
              | some r0 =>
                rw [hrec] at h
                simp only [Option.some.injEq] at h
                rw [ih _ (insertVisited url v) r0 hrec, ← h]
      · rw [crawlLoop_stop C mp url rest v hb]
        simp [crawlLoopFuel, hb] at h
        rw [← h]

/-- The crawl loop completes within some finite iteration budget. -/
theorem crawlLoop_fuelExists (C : Ctx) (mp : Nat) (q v : List String) :
    ∃ n, crawlLoopFuel C mp n q v = some (crawlLoop C mp q v) := by
  induction q, v using crawlLoop.induct C mp with
  | case1 v => exact ⟨1, by rw [crawlLoop_nil]; simp [crawlLoopFuel]⟩
  | case2 v url rest hb hv ih =>
    obtain ⟨n, hn⟩ := ih
    exact ⟨n + 1, by
      rw [crawlLoop_skip_visited C mp url rest v hb hv]
      simpa [crawlLoopFuel, hb, hv] using hn⟩
  | case3 v url rest hb hv hd ih =>
    obtain ⟨n, hn⟩ := ih
    exact ⟨n + 1, by
      rw [crawlLoop_skip_domain C mp url rest v hb hv hd]
      simpa [crawlLoopFuel, hb, hv, hd] using hn⟩
  | case4 v url rest hb hv hd hf v2 ih =>
    obtain ⟨n, hn⟩ :=
      (ih : ∃ n, crawlLoopFuel C mp n rest (insertVisited url v) =
        some (crawlLoop C mp rest (insertVisited url v)))
    have hd2 : is_allowed_domain C.allowedDomains url = true := by
      cases hA : is_allowed_domain C.allowedDomains url
      · exact absurd hA hd
      · rfl
    exact ⟨n + 1, by
      rw [crawlLoop_fetch_fail C mp url rest v hb hv hd2 hf]
      simp only [crawlLoopFuel, if_pos hb, if_neg hv, if_neg hd, hf]
      rw [hn]⟩
  | case5 v url rest hb hv hd html hf v2 r2 ih =>
    obtain ⟨n, hn⟩ :=
      (ih : ∃ n, crawlLoopFuel C mp n
          (if C.followLinks then
             addLinksToQueue (insertVisited url v) rest (C.extractLinks html url)
           else rest) (insertVisited url v) =
        some (crawlLoop C mp
          (if C.followLinks then
             addLinksToQueue (insertVisited url v) rest (C.extractLinks html url)
           else rest) (insertVisited url v)))
    have hd2 : is_allowed_domain C.allowedDomains url = true := by
      cases hA : is_allowed_domain C.allowedDomains url
      · exact absurd hA hd
      · rfl
    exact ⟨n + 1, by
      rw [crawlLoop_fetch_ok C mp url html rest v hb hv hd2 hf]
      simp only [crawlLoopFuel, if_pos hb, if_neg hv, if_neg hd, hf]
      rw [show crawlLoopFuel C mp n
            (if C.followLinks then
               addLinksToQueue (insertVisited url v) rest (C.extractLinks html url)
             else rest) (insertVisited url v) =
          some (crawlLoop C mp
            (if C.followLinks then
               addLinksToQueue (insertVisited url v) rest (C.extractLinks html url)
             else rest) (insertVisited url v)) from hn]⟩
  | case6 v url rest hb =>
    exact ⟨1, by
      rw [crawlLoop_stop C mp url rest v hb]
      simp [crawlLoopFuel, hb]⟩

/-- Evaluation lemma for whole runs: a `crawlFuel` computation that
completes determines the `crawl` result. -/
theorem crawlFuel_sound (C : Ctx) (n : Nat) (s : Scraper) (startUrl : String)
    (mpArg : Option Nat) (r : CrawlRun) (h : crawlFuel C n s startUrl mpArg = some r) :
    crawl C s startUrl mpArg = r := by
  unfold crawlFuel at h
  unfold crawl
  cases hrec : crawlLoopFuel C (effectiveMaxPages C mpArg) n [startUrl] s.visited_urls with
  | none => rw [hrec] at h; simp at h
  | some r0 =>
    rw [hrec] at h
    simp only [Option.some.injEq] at h
    rw [crawlLoopFuel_sound C _ n [startUrl] s.visited_urls r0 hrec, ← h]

/-- Membership after a visited-set insertion. -/
theorem insertVisited_mem (x url : String) (v : List String) :
    x ∈ insertVisited url v ↔ x ∈ v ∨ x = url := by
  unfold insertVisited
  by_cases h : url ∈ v
  · simp only [if_pos h]
    constructor
    · exact Or.inl
    · rintro (hx | rfl)
      · exact hx
      · exact h
  · simp [if_neg h, List.mem_append]

/-- The inserted URL is in the visited set. -/
theorem insertVisited_self (url : String) (v : List String) :
    url ∈ insertVisited url v := by
  rw [insertVisited_mem]; right; rfl

/-- Inserting an absent URL grows the visited set by one. -/
theorem insertVisited_length (url : String) (v : List String) (h : url ∉ v) :
    (insertVisited url v).length = v.length + 1 := by
  simp [insertVisited, h]

/-- Membership in the queue produced by `addLinksToQueue`: exactly the
old queue entries plus those links that are neither visited nor already
queued. -/
theorem addLinksToQueue_mem (v : List String) (ls : List String) :
    ∀ (q : List String) (l : String),
      l ∈ addLinksToQueue v q ls ↔ l ∈ q ∨ (l ∈ ls ∧ l ∉ v ∧ l ∉ q) := by
  induction ls with
  | nil => intro q l; simp [addLinksToQueue]
  | cons x ls ih =>
    intro q l
    by_cases hx : x ∈ v ∨ x ∈ q
    · rw [addLinksToQueue, if_pos hx, ih]
      by_cases hlx : l = x
      · subst hlx; simp only [List.mem_cons, true_or]; tauto
      · simp only [List.mem_cons]; tauto
    · rw [addLinksToQueue, if_neg hx, ih]
      push_neg at hx
      by_cases hlx : l = x
      · subst hlx
        simp only [List.mem_append, List.mem_cons, List.mem_singleton, true_or]
        tauto
      · simp only [List.mem_append, List.mem_cons, List.mem_singleton]
        tauto

/-- Core uniqueness invariant of the crawl loop: the URLs that get
fetched are pairwise distinct and none of them was visited at entry. -/
theorem crawlLoop_fetched (C : Ctx) (mp : Nat) (q v : List String) :
    (∀ u ∈ fetchedUrls (crawlLoop C mp q v).trace, u ∉ v) ∧
    (fetchedUrls (crawlLoop C mp q v).trace).Nodup := by
  induction q, v using crawlLoop.induct C mp with
  | case1 v => rw [crawlLoop_nil]; simp
  | case2 v url rest hb hv ih =>
    rw [crawlLoop_skip_visited C mp url rest v hb hv]; exact ih
  | case3 v url rest hb hv hd ih =>
    rw [crawlLoop_skip_domain C mp url rest v hb hv hd]; exact ih
  | case4 v url rest hb hv hd hf v2 ih =>
    obtain ⟨fresh, nd⟩ :=
      (ih : (∀ u ∈ fetchedUrls (crawlLoop C mp rest (insertVisited url v)).trace,
               u ∉ insertVisited url v) ∧
            (fetchedUrls (crawlLoop C mp rest (insertVisited url v)).trace).Nodup)
    have hd2 : is_allowed_domain C.allowedDomains url = true := by
      cases hA : is_allowed_domain C.allowedDomains url
      · exact absurd hA hd
      · rfl
    rw [crawlLoop_fetch_fail C mp url rest v hb hv hd2 hf]
    simp only [fetchedUrls_fetch_cons, fetchedUrls_ite_sleep]
    constructor
    · intro u hu
      rcases List.mem_cons.mp hu with rfl | hu2
      · exact hv
      · intro huv
        exact fresh u hu2 ((insertVisited_mem u url v).mpr (Or.inl huv))
    · refine List.nodup_cons.mpr ⟨?_, nd⟩
      intro hmem
      exact fresh url hmem (insertVisited_self url v)
  | case5 v url rest hb hv hd html hf v2 r2 ih =>
    obtain ⟨fresh, nd⟩ :=
      (ih : (∀ u ∈ fetchedUrls (crawlLoop C mp
               (if C.followLinks then
                  addLinksToQueue (insertVisited url v) rest (C.extractLinks html url)
                else rest) (insertVisited url v)).trace,
               u ∉ insertVisited url v) ∧
            (fetchedUrls (crawlLoop C mp
               (if C.followLinks then
                  addLinksToQueue (insertVisited url v) rest (C.extractLinks html url)
                else rest) (insertVisited url v)).trace).Nodup)
    have hd2 : is_allowed_domain C.allowedDomains url = true := by
      cases hA : is_allowed_domain C.allowedDomains url
      · exact absurd hA hd
      · rfl
    rw [crawlLoop_fetch_ok C mp url html rest v hb hv hd2 hf]
    simp only [fetchedUrls_fetch_cons, fetchedUrls_ite_sleep]
    constructor
    · intro u hu
      rcases List.mem_cons.mp hu with rfl | hu2
      · exact hv
      · intro huv
        exact fresh u hu2 ((insertVisited_mem u url v).mpr (Or.inl huv))
    · refine List.nodup_cons.mpr ⟨?_, nd⟩
      intro hmem
      exact fresh url hmem (insertVisited_self url v)
  | case6 v url rest hb =>
    rw [crawlLoop_stop C mp url rest v hb]; simp

/-- Page-budget invariant of the crawl loop: when the visited set is
within the budget at entry, it is within the budget at exit. -/
theorem crawlLoop_visited_le (C : Ctx) (mp : Nat) (q v : List String) :
    v.length ≤ mp → (crawlLoop C mp q v).visited.length ≤ mp := by
  induction q, v using crawlLoop.induct C mp with
  | case1 v => intro h; rw [crawlLoop_nil]; exact h
  | case2 v url rest hb hv ih =>
    intro h; rw [crawlLoop_skip_visited C mp url rest v hb hv]; exact ih h
  | case3 v url rest hb hv hd ih =>
    intro h; rw [crawlLoop_skip_domain C mp url rest v hb hv hd]; exact ih h
  | case4 v url rest hb hv hd hf v2 ih =>
    intro h
    have hd2 : is_allowed_domain C.allowedDomains url = true := by
      cases hA : is_allowed_domain C.allowedDomains url
      · exact absurd hA hd
      · rfl
    rw [crawlLoop_fetch_fail C mp url rest v hb hv hd2 hf]
    exact (ih : (insertVisited url v).length ≤ mp →
        (crawlLoop C mp rest (insertVisited url v)).visited.length ≤ mp)
      (by rw [insertVisited_length url v hv]; omega)
  | case5 v url rest hb hv hd html hf v2 r2 ih =>
    intro h
    have hd2 : is_allowed_domain C.allowedDomains url = true := by
      cases hA : is_allowed_domain C.allowedDomains url
      · exact absurd hA hd
      · rfl
    rw [crawlLoop_fetch_ok C mp url html rest v hb hv hd2 hf]
    exact (ih : (insertVisited url v).length ≤ mp →
        (crawlLoop C mp
          (if C.followLinks then
             addLinksToQueue (insertVisited url v) rest (C.extractLinks html url)
           else rest) (insertVisited url v)).visited.length ≤ mp)
      (by rw [insertVisited_length url v hv]; omega)
  | case6 v url rest hb =>
    intro h; rw [crawlLoop_stop C mp url rest v hb]; exact h

/-- A non-positive configured delay produces no sleep event. -/
theorem crawlLoop_no_sleep (C : Ctx) (mp : Nat) (hdelay : C.delay ≤ 0)
    (q v : List String) : Ev.sleep ∉ (crawlLoop C mp q v).trace := by
  have hneg : ¬ 0 < C.delay := by omega
  induction q, v using crawlLoop.induct C mp with
  | case1 v => rw [crawlLoop_nil]; simp
  | case2 v url rest hb hv ih =>
    rw [crawlLoop_skip_visited C mp url rest v hb hv]; exact ih
  | case3 v url rest hb hv hd ih =>
    rw [crawlLoop_skip_domain C mp url rest v hb hv hd]; exact ih
  | case4 v url rest hb hv hd hf v2 ih =>
    have hd2 : is_allowed_domain C.allowedDomains url = true := by
      cases hA : is_allowed_domain C.allowedDomains url
      · exact absurd hA hd
      · rfl
    rw [crawlLoop_fetch_fail C mp url rest v hb hv hd2 hf]
    have ih2 := (ih : Ev.sleep ∉ (crawlLoop C mp rest (insertVisited url v)).trace)
    simp only [List.mem_cons]
    rintro (h | h)
    · exact Ev.noConfusion h
    · rw [if_neg (by tauto)] at h
      exact ih2 h
  | case5 v url rest hb hv hd html hf v2 r2 ih =>
    have hd2 : is_allowed_domain C.allowedDomains url = true := by
      cases hA : is_allowed_domain C.allowedDomains url
      · exact absurd hA hd
      · rfl
    rw [crawlLoop_fetch_ok C mp url html rest v hb hv hd2 hf]
    have ih2 := (ih : Ev.sleep ∉ (crawlLoop C mp
        (if C.followLinks then
           addLinksToQueue (insertVisited url v) rest (C.extractLinks html url)
         else rest) (insertVisited url v)).trace)
    simp only [List.mem_cons]
    rintro (h | h)
    · exact Ev.noConfusion h
    · rw [if_neg (by tauto)] at h
      exact ih2 h
  | case6 v url rest hb =>
    rw [crawlLoop_stop C mp url rest v hb]; simp

/-- A sleep event in the trace implies the configured delay is
positive. -/
theorem crawlLoop_sleep_delay_pos (C : Ctx) (mp : Nat) (q v : List String) :
    Ev.sleep ∈ (crawlLoop C mp q v).trace → 0 < C.delay := by
  intro hmem
  by_contra hneg
  exact crawlLoop_no_sleep C mp (by omega) q v hmem

/-- Characterization of a successful fetch: exactly the 200 responses
return their body. -/
theorem fetch_page_eq_some (r : HttpResult) (b : String) :
    fetch_page r = some b ↔ r = HttpResult.response 200 b := by
  cases r with
  | response status body =>
    constructor
    · intro h
      by_cases h200 : status = 200
      · subst h200
        simp [fetch_page] at h
        rw [h]
      · simp only [fetch_page, if_neg h200] at h
        split at h <;> simp_all
    · intro h
      injection h with h1 h2
      subst h1; subst h2
      simp [fetch_page]
  | timeout => simp [fetch_page]
  | connError => simp [fetch_page]
  | requestErr m => simp [fetch_page]
  | otherErr m => simp [fetch_page]

/-- A concrete page record for the example contexts. -/
def pageOf (url : String) : PageData := ⟨url, "t", [], [], ""⟩

/-- Example context: every URL answers 200 with body "body", pages have
no links, all domains allowed, no delay, configured budget 10. -/
def ctxPlain : Ctx :=
  { http := fun _ => .response 200 "body"
  , parse := fun _ u => pageOf u
  , extractLinks := fun _ _ => []
  , allowedDomains := []
  , followLinks := false
  , delay := 0
  , cfgMaxPages := 10 }

/-- Example context restricted to the allow-list ["example.com"]. -/
def ctxAllow : Ctx := { ctxPlain with allowedDomains := ["example.com"] }

/-- Example context with link following, one outbound link "b" on every
page, and a positive delay. -/
def ctxLinks : Ctx :=
  { ctxPlain with
      delay := 1
    , followLinks := true
    , extractLinks := fun _ _ => ["b"] }

/-- Example context whose fetches always fail with a 404 response. -/
def ctxFail : Ctx := { ctxPlain with http := fun _ => .response 404 "nf" }

/-- C1: within one crawl run no URL is fetched twice: the fetched URLs
are pairwise distinct, a URL in the visited set at entry is never
fetched, and `_add_links_to_queue` enqueues exactly the links that are
neither visited nor already queued. -/
theorem claim_C1 (C : Ctx) (s : Scraper) (startUrl : String)
    (mpArg : Option Nat) :
    (fetchedUrls (crawl C s startUrl mpArg).trace).Nodup ∧
    (∀ u ∈ fetchedUrls (crawl C s startUrl mpArg).trace, u ∉ s.visited_urls) ∧
    (∀ (v q ls : List String) (l : String),
      l ∈ addLinksToQueue v q ls ↔ l ∈ q ∨ (l ∈ ls ∧ l ∉ v ∧ l ∉ q)) := by
  refine ⟨?_, ?_, ?_⟩
  · exact (crawlLoop_fetched C (effectiveMaxPages C mpArg) [startUrl] s.visited_urls).2
  · exact (crawlLoop_fetched C (effectiveMaxPages C mpArg) [startUrl] s.visited_urls).1
  · exact fun v q ls l => addLinksToQueue_mem v ls q l

/-- Witness for C1 at a concrete run. -/
theorem claim_C1_witness :
    (fetchedUrls (crawl ctxPlain scraperInit "a" none).trace).Nodup :=
  (claim_C1 ctxPlain scraperInit "a" none).1

/-- C2: a crawl run that starts with an empty visited set and page
budget N (N at least 1) ends with at most N visited URLs. -/
theorem claim_C2 (C : Ctx) (s : Scraper) (startUrl : String) (N : Nat)
    (hN : 1 ≤ N) (hs : s.visited_urls = []) :
    ((crawl C s startUrl (some N)).scraper.visited_urls).length ≤ N := by
  have h1 : (crawl C s startUrl (some N)).scraper.visited_urls =
      (crawlLoop C (effectiveMaxPages C (some N)) [startUrl] s.visited_urls).visited := rfl
  have h2 : effectiveMaxPages C (some N) = N := by
    show (if N = 0 then C.cfgMaxPages else N) = N
    rw [if_neg (by omega)]
  rw [h1, h2]
  exact crawlLoop_visited_le C N [startUrl] s.visited_urls (by simp [hs])

/-- Witness for C2 at a concrete run with budget 1. -/
theorem claim_C2_witness :
    ((crawl ctxPlain scraperInit "a" (some 1)).scraper.visited_urls).length ≤ 1 :=
  claim_C2 ctxPlain scraperInit "a" 1 (by decide) rfl

/-- C3: for every context (hence every fetcher and parser behavior with
finitely many links per page), start URL, initial state and budget, the
crawl loop terminates: some finite iteration budget suffices and yields
the crawl result. -/
theorem claim_C3 (C : Ctx) (s : Scraper) (startUrl : String)
    (mpArg : Option Nat) :
    ∃ n, crawlFuel C n s startUrl mpArg = some (crawl C s startUrl mpArg) := by
  obtain ⟨n, hn⟩ :=
    crawlLoop_fuelExists C (effectiveMaxPages C mpArg) [startUrl] s.visited_urls
  refine ⟨n, ?_⟩
  unfold crawlFuel crawl
  rw [hn]

/-- Witness for C3 at a concrete run. -/
theorem claim_C3_witness :
    ∃ n, crawlFuel ctxPlain n scraperInit "a" none =
      some (crawl ctxPlain scraperInit "a" none) :=
  claim_C3 ctxPlain scraperInit "a" none

/-- Counterexample to C4: on one scraper instance, a first crawl of "a"
fetches "a", but a second crawl invocation of the same URL on the
resulting instance performs no fetch at all — the second invocation did
not start with an empty visited set, so visited state is shared across
runs. -/
theorem claim_C4_cex :
    (crawl ctxPlain scraperInit "a" none).trace = [Ev.fetch "a"] ∧
    (crawl ctxPlain (crawl ctxPlain scraperInit "a" none).scraper "a" none).trace
      = [] := by
  have h1 : crawl ctxPlain scraperInit "a" none =
      ⟨⟨["a"], []⟩, [pageOf "a"], [Ev.fetch "a"]⟩ :=
    crawlFuel_sound ctxPlain 2 scraperInit "a" none
      ⟨⟨["a"], []⟩, [pageOf "a"], [Ev.fetch "a"]⟩ (by rfl)
  have h2 : crawl ctxPlain (⟨["a"], []⟩ : Scraper) "a" none =
      ⟨⟨["a"], []⟩, [], []⟩ :=
    crawlFuel_sound ctxPlain 2 ⟨["a"], []⟩ "a" none
      ⟨⟨["a"], []⟩, [], []⟩ (by rfl)
  constructor
  · rw [h1]
  · rw [h1, h2]

/-- C4 amended: each crawl invocation resets the frontier queue to
exactly the seed URL, so queued state does not persist across runs (the
result does not depend on the leftover queue of the instance); but the
visited set is created at scraper construction and persists across
crawl invocations on the same instance: a URL in the visited set at
entry is never fetched by the run, and the entry visited set survives
into the final state. -/
theorem claim_C4_amended (C : Ctx) (s s2 : Scraper) (startUrl : String)
    (mpArg : Option Nat) (hsv : s.visited_urls = s2.visited_urls) :
    crawl C s startUrl mpArg = crawl C s2 startUrl mpArg ∧
    (∀ u ∈ s.visited_urls, Ev.fetch u ∉ (crawl C s startUrl mpArg).trace) := by
  constructor
  · unfold crawl; rw [hsv]
  · intro u hu hmem
    have hu2 : u ∈ fetchedUrls (crawl C s startUrl mpArg).trace :=
      List.mem_filterMap.mpr ⟨Ev.fetch u, hmem, rfl⟩
    exact (crawlLoop_fetched C (effectiveMaxPages C mpArg) [startUrl]
      s.visited_urls).1 u hu2 hu

/-- Witness for the amended C4: a leftover queue entry on the instance
does not affect the next crawl invocation. -/
theorem claim_C4_amended_witness :
    crawl ctxPlain (⟨[], ["junk"]⟩ : Scraper) "a" none =
      crawl ctxPlain scraperInit "a" none :=
  (claim_C4_amended ctxPlain ⟨[], ["junk"]⟩ scraperInit "a" none rfl).1

/-- Counterexample to C5: with `allowed_domains = ["example.com"]`, the
URL `https://notexample.com/x` passes the domain filter — its host
`notexample.com` contains "example.com" as a substring — and a crawl
seeded with it does fetch it, contradicting the claim that it is never
fetched. -/
theorem claim_C5_cex :
    is_allowed_domain ["example.com"] "https://notexample.com/x" = true ∧
    (crawl ctxAllow scraperInit "https://notexample.com/x" none).trace =
      [Ev.fetch "https://notexample.com/x"] := by
  constructor
  · rfl
  · rw [crawlFuel_sound ctxAllow 2 scraperInit "https://notexample.com/x" none
      ⟨⟨["https://notexample.com/x"], []⟩, [pageOf "https://notexample.com/x"],
        [Ev.fetch "https://notexample.com/x"]⟩ (by rfl)]

/-- C5 amended: the domain filter returns true when the allow-list is
empty, and otherwise returns true iff some allow-list entry is a
substring of the URL host.  With `allowed_domains = ["example.com"]`, a
link with host `sub.example.com.evil.test` is fetched, and a link with
host `notexample.com` is ALSO allowed and fetched, because
"example.com" is a substring of "notexample.com"; a URL whose host
contains no entry, such as `other.org`, is never fetched. -/
theorem claim_C5_amended :
    (∀ url, is_allowed_domain [] url = true) ∧
    (∀ (ds : List String) (url : String), ds ≠ [] →
      (is_allowed_domain ds url = true ↔
        ∃ d ∈ ds, strContainsPy (netlocOf url) d = true)) ∧
    is_allowed_domain ["example.com"] "https://sub.example.com.evil.test/y" = true ∧
    is_allowed_domain ["example.com"] "https://notexample.com/x" = true ∧
    (crawl ctxAllow scraperInit "https://sub.example.com.evil.test/y" none).trace =
      [Ev.fetch "https://sub.example.com.evil.test/y"] ∧
    is_allowed_domain ["example.com"] "https://other.org/z" = false ∧
    (crawl ctxAllow scraperInit "https://other.org/z" none).trace = [] := by
  refine ⟨?_, ?_, rfl, rfl, ?_, rfl, ?_⟩
  · intro url; rfl
  · intro ds url hds
    unfold is_allowed_domain
    rw [if_neg (by simpa [List.isEmpty_iff] using hds)]
    exact List.any_eq_true
  · rw [crawlFuel_sound ctxAllow 2 scraperInit
      "https://sub.example.com.evil.test/y" none
      ⟨⟨["https://sub.example.com.evil.test/y"], []⟩,
        [pageOf "https://sub.example.com.evil.test/y"],
        [Ev.fetch "https://sub.example.com.evil.test/y"]⟩ (by rfl)]
  · rw [crawlFuel_sound ctxAllow 2 scraperInit "https://other.org/z" none
      ⟨⟨[], []⟩, [], []⟩ (by rfl)]

/-- Witness for the amended C5 at its substring-matching conjunct. -/
theorem claim_C5_amended_witness :
    is_allowed_domain ["example.com"] "https://notexample.com/x" = true :=
  claim_C5_amended.2.2.2.1

/-- C6: `fetch_page` is total (never raises) and returns a body exactly
for a 200 response; and when the fetch of a dequeued URL fails, the
iteration produces no page record, enqueues no links, performs no
retry (the URL is fetched exactly this once), marks the URL visited,
and the crawl continues on the untouched remaining queue. -/
theorem claim_C6 (C : Ctx) (r : HttpResult) (b : String) (mp : Nat)
    (url : String) (rest v : List String)
    (hb : v.length < mp) (hv : url ∉ v)
    (hd : is_allowed_domain C.allowedDomains url = true)
    (hf : fetch_page (C.http url) = none) :
    (fetch_page r = some b ↔ r = HttpResult.response 200 b) ∧
    (crawlLoop C mp (url :: rest) v).results =
      (crawlLoop C mp rest (insertVisited url v)).results ∧
    (crawlLoop C mp (url :: rest) v).visited =
      (crawlLoop C mp rest (insertVisited url v)).visited ∧
    fetchedUrls (crawlLoop C mp (url :: rest) v).trace =
      url :: fetchedUrls (crawlLoop C mp rest (insertVisited url v)).trace := by
  refine ⟨fetch_page_eq_some r b, ?_, ?_, ?_⟩
  · rw [crawlLoop_fetch_fail C mp url rest v hb hv hd hf]
  · rw [crawlLoop_fetch_fail C mp url rest v hb hv hd hf]
  · rw [crawlLoop_fetch_fail C mp url rest v hb hv hd hf]
    simp only [fetchedUrls_fetch_cons, fetchedUrls_ite_sleep]

/-- Witness for C6: a 404 on the seed URL yields no record, marks the
seed visited, and the crawl completes. -/
theorem claim_C6_witness :
    (fetch_page (HttpResult.response 404 "nf") = some "x" ↔
        HttpResult.response 404 "nf" = HttpResult.response 200 "x") ∧
    (crawlLoop ctxFail 10 ["a"] []).results =
      (crawlLoop ctxFail 10 [] (insertVisited "a" [])).results ∧
    (crawlLoop ctxFail 10 ["a"] []).visited =
      (crawlLoop ctxFail 10 [] (insertVisited "a" [])).visited ∧
    fetchedUrls (crawlLoop ctxFail 10 ["a"] []).trace =
      "a" :: fetchedUrls (crawlLoop ctxFail 10 [] (insertVisited "a" [])).trace :=
  claim_C6 ctxFail (HttpResult.response 404 "nf") "x" 10 "a" [] []
    (by decide) (by simp) rfl rfl

/-- Counterexample to C7: with delay 1 and page budget 1, crawling "a"
(whose page links to "b") produces the trace fetch "a" then sleep — a
delay IS incurred after the final fetch of the run, because the queue
is still non-empty when the budget stops the loop. -/
theorem claim_C7_cex :
    (crawl ctxLinks scraperInit "a" (some 1)).trace =
      [Ev.fetch "a", Ev.sleep] := by
  rw [crawlFuel_sound ctxLinks 2 scraperInit "a" (some 1)
    ⟨⟨["a"], ["b"]⟩, [pageOf "a"], [Ev.fetch "a", Ev.sleep]⟩ (by rfl)]

/-- C7 amended: a non-positive configured delay produces no sleep; any
sleep implies the delay is positive; and in a fetch iteration the sleep
happens exactly when the delay is positive and the queue (after the
enqueue step on success) is non-empty — which can be after the final
fetch of the run. -/
theorem claim_C7_amended (C : Ctx) (mp : Nat) :
    (∀ q v, C.delay ≤ 0 → Ev.sleep ∉ (crawlLoop C mp q v).trace) ∧
    (∀ q v, Ev.sleep ∈ (crawlLoop C mp q v).trace → 0 < C.delay) ∧
    (∀ url rest v, v.length < mp → url ∉ v →
      is_allowed_domain C.allowedDomains url = true →
      fetch_page (C.http url) = none →
      (crawlLoop C mp (url :: rest) v).trace =
        Ev.fetch url ::
          (if 0 < C.delay ∧ rest ≠ [] then
             Ev.sleep :: (crawlLoop C mp rest (insertVisited url v)).trace
           else (crawlLoop C mp rest (insertVisited url v)).trace)) ∧
    (∀ url html rest v, v.length < mp → url ∉ v →
      is_allowed_domain C.allowedDomains url = true →
      fetch_page (C.http url) = some html →
      (crawlLoop C mp (url :: rest) v).trace =
        Ev.fetch url ::
          (if 0 < C.delay ∧
               (if C.followLinks then
                  addLinksToQueue (insertVisited url v) rest (C.extractLinks html url)
                else rest) ≠ [] then
             Ev.sleep ::
               (crawlLoop C mp
                  (if C.followLinks then
                     addLinksToQueue (insertVisited url v) rest (C.extractLinks html url)
                   else rest) (insertVisited url v)).trace
           else
             (crawlLoop C mp
                (if C.followLinks then
                   addLinksToQueue (insertVisited url v) rest (C.extractLinks html url)
                 else rest) (insertVisited url v)).trace)) := by
  refine ⟨?_, ?_, ?_, ?_⟩
  · intro q v hdel
    exact crawlLoop_no_sleep C mp hdel q v
  · intro q v hmem
    exact crawlLoop_sleep_delay_pos C mp q v hmem
  · intro url rest v hb hv hd hf
    rw [crawlLoop_fetch_fail C mp url rest v hb hv hd hf]
  · intro url html rest v hb hv hd hf
    rw [crawlLoop_fetch_ok C mp url html rest v hb hv hd hf]

/-- Witness for the amended C7: with the zero-delay context no sleep
occurs. -/
theorem claim_C7_amended_witness :
    Ev.sleep ∉ (crawlLoop ctxPlain 10 ["a"] []).trace :=
  (claim_C7_amended ctxPlain 10).1 ["a"] [] (by decide)

/-- C8: when the domain filter rejects a dequeued, not yet visited URL
within budget, the iteration is a pure skip: the run is identical to
the run on the remaining queue — same visited set, same records, same
trace (no fetch, no sleep, no enqueue, visited unchanged). -/
theorem claim_C8 (C : Ctx) (mp : Nat) (url : String) (rest v : List String)
    (hb : v.length < mp) (hv : url ∉ v)
    (hd : is_allowed_domain C.allowedDomains url = false) :
    crawlLoop C mp (url :: rest) v = crawlLoop C mp rest v :=
  crawlLoop_skip_domain C mp url rest v hb hv hd

/-- Witness for C8: a URL outside the allow-list is skipped. -/
theorem claim_C8_witness :
    crawlLoop ctxAllow 10 ["https://other.org/z"] [] =
      crawlLoop ctxAllow 10 [] [] :=
  claim_C8 ctxAllow 10 "https://other.org/z" [] [] (by decide) (by simp) rfl

/-- C9: single-page mode never consults the domain filter: its result
is independent of the `allowed_domains` setting, and it performs its
one fetch of the URL in every context, in particular when a non-empty
allow-list excludes the URL. -/
theorem claim_C9 (C : Ctx) (ds : List String) (url : String) :
    scrape_single_page { C with allowedDomains := ds } url =
      scrape_single_page C url ∧
    (scrape_single_page { C with allowedDomains := ds } url).2 =
      [Ev.fetch url] := by
  unfold scrape_single_page
  cases h : fetch_page (C.http url) <;> simp

/-- Witness for C9: an allow-list that excludes the host changes
nothing in single-page mode. -/
theorem claim_C9_witness :
    scrape_single_page { ctxPlain with allowedDomains := ["example.com"] }
        "https://other.org/z" =
      scrape_single_page ctxPlain "https://other.org/z" :=
  (claim_C9 ctxPlain ["example.com"] "https://other.org/z").1

/-- C10: when run with a config file and no explicit flags, the truthy
argparse defaults (10, 2, 30, "json") overwrite whatever the config
file loaded for max_pages, delay_between_requests, timeout and
output_format, for every loaded configuration. -/
theorem claim_C10 (cfg : ConfigState) (path : String) :
    (applyCliOverrides cfg (argsConfigOnly path)).maxPages = 10 ∧
    (applyCliOverrides cfg (argsConfigOnly path)).delay = 2 ∧
    (applyCliOverrides cfg (argsConfigOnly path)).timeout = 30 ∧
    (applyCliOverrides cfg (argsConfigOnly path)).outputFormat = "json" := by
  unfold applyCliOverrides argsConfigOnly
  norm_num
  simp only [if_neg (show ¬("json" : String) = "" from by decide)]
  exact ⟨trivial, trivial, trivial⟩

/-- Witness for C10 at a config file whose values differ from every
default: they are all clobbered. -/
theorem claim_C10_witness :
    (applyCliOverrides ⟨"https://example.com", 99, 7, "csv", 5, [], true, none⟩
        (argsConfigOnly "my.json")).maxPages = 10 ∧
    (applyCliOverrides ⟨"https://example.com", 99, 7, "csv", 5, [], true, none⟩
        (argsConfigOnly "my.json")).delay = 2 ∧
    (applyCliOverrides ⟨"https://example.com", 99, 7, "csv", 5, [], true, none⟩
        (argsConfigOnly "my.json")).timeout = 30 ∧
    (applyCliOverrides ⟨"https://example.com", 99, 7, "csv", 5, [], true, none⟩
        (argsConfigOnly "my.json")).outputFormat = "json" :=
  claim_C10 ⟨"https://example.com", 99, 7, "csv", 5, [], true, none⟩ "my.json"
